import Mathlib

/-!
Shallow embedding of the CalDAV query-matching engine of go-webdav
(`caldav/match.go`): component filters, property filters, parameter
filters, text matches and time-range overlap tests, evaluated against a
parsed iCalendar component tree.

Modelling choices:
- Go `time.Time` becomes `Int`; the zero value of `time.Time` becomes
  `0`, so the source's sentinel test `filter.Start != zeroDate` becomes
  `filter.Start ≠ 0`.  `t.After(u)` is `t > u`, `t.Before(u)` is `t < u`.
- The external go-ical date/time derivation API (`Event.DateTimeStart`,
  `Event.DateTimeEnd`, `Prop.DateTime`), which can fail on malformed
  data, is an explicit environment `ICalEnv` of fallible functions; the
  evaluator is parameterised over it, mirroring the read-only capability
  the Go code consumes.  Time-zone (`Location`) arguments only influence
  the opaque derivation, so they are absorbed into the environment.
- Go `(T, error)` results become `Except String T`.
-/

namespace Caldav

/-- Go `time.Time`, modelled as an integer instant; `0` is the zero value. -/
abbrev Time := Int

/-- The zero `time.Time`, used by the source as a "no time range" sentinel. -/
def zeroDate : Time := 0

/-- go-ical `Prop`: a property with a name, a scalar value and parameters
(parameters modelled as an association list of name/value pairs). -/
structure ICalProp where
  Name : String
  Value : String
  Params : List (String × String)
deriving DecidableEq, Repr

/-- go-ical `Component`: a named node with properties and child components. -/
inductive Component where
  | mk (Name : String) (Props : List ICalProp) (Children : List Component)
deriving Repr

/-- Component name accessor. -/
def Component.Name : Component → String
  | .mk n _ _ => n

/-- Component property-list accessor. -/
def Component.Props : Component → List ICalProp
  | .mk _ ps _ => ps

/-- Component children accessor. -/
def Component.Children : Component → List Component
  | .mk _ _ cs => cs

/-- go-ical `ical.CompEvent`. -/
def CompEvent : String := "VEVENT"

/-- External go-ical `Props.Get`: the first property with the given name,
or `none` (`nil`) when there is none. -/
def propsGet (props : List ICalProp) (name : String) : Option ICalProp :=
  props.find? (fun p => p.Name == name)

/-- External go-ical `Params.Get`: the value of the named parameter, or
`""` when the parameter is absent. -/
def paramsGet (params : List (String × String)) (name : String) : String :=
  match params.find? (fun kv => kv.1 == name) with
  | some kv => kv.2
  | none => ""

/-- caldav `TextMatch` filter element. -/
structure TextMatch where
  Text : String
  NegateCondition : Bool
deriving DecidableEq, Repr

/-- caldav `ParamFilter` filter element. -/
structure ParamFilter where
  Name : String
  IsNotDefined : Bool
  TextMatch : Option TextMatch
deriving DecidableEq, Repr

/-- caldav `PropFilter` filter element. -/
structure PropFilter where
  Name : String
  IsNotDefined : Bool
  Start : Time
  End : Time
  TextMatch : Option TextMatch
  ParamFilter : List ParamFilter
deriving DecidableEq, Repr

/-- caldav `CompFilter` filter element (recursive through `Comps`). -/
inductive CompFilter where
  | mk (Name : String) (IsNotDefined : Bool) (Start : Time) (End : Time)
       (Comps : List CompFilter) (Props : List PropFilter)
deriving Repr

/-- CompFilter name accessor. -/
def CompFilter.Name : CompFilter → String
  | .mk n _ _ _ _ _ => n

/-- CompFilter `IsNotDefined` accessor. -/
def CompFilter.IsNotDefined : CompFilter → Bool
  | .mk _ d _ _ _ _ => d

/-- CompFilter `Start` accessor. -/
def CompFilter.Start : CompFilter → Time
  | .mk _ _ s _ _ _ => s

/-- CompFilter `End` accessor. -/
def CompFilter.End : CompFilter → Time
  | .mk _ _ _ e _ _ => e

/-- CompFilter nested component filters accessor. -/
def CompFilter.Comps : CompFilter → List CompFilter
  | .mk _ _ _ _ cs _ => cs

/-- CompFilter nested property filters accessor. -/
def CompFilter.Props : CompFilter → List PropFilter
  | .mk _ _ _ _ _ ps => ps

/-- caldav `CalendarQuery` (only the part the matcher reads). -/
structure CalendarQuery where
  CompFilter : CompFilter

/-- go-ical `Calendar`: wraps the root component (`nil`-able in Go). -/
structure Calendar where
  Component : Option Component

/-- caldav `CalendarObject` (the fields the matcher and filter read;
`Path` stands for the identifying metadata carried through `Filter`). -/
structure CalendarObject where
  Path : String
  Data : Option Calendar

/-- The external go-ical derivation API consumed read-only by the matcher:
`Event.DateTimeStart`, `Event.DateTimeEnd` and `Prop.DateTime`, each of
which may fail with a data-format error. -/
structure ICalEnv where
  dateTimeStart : Component → Except String Time
  dateTimeEnd : Component → Except String Time
  propDateTime : ICalProp → Except String Time

/-- `matchTextMatch` (match.go): literal equality, optionally negated. -/
def matchTextMatch (txt : TextMatch) (value : String) : Bool :=
  let m := value == txt.Text
  if txt.NegateCondition then !m else m

/-- `matchParamFilter` (match.go): parameter lookup with absence handled by
`IsNotDefined`, then optional text match. -/
def matchParamFilter (filter : ParamFilter) (field : ICalProp) : Bool :=
  let value := paramsGet field.Params filter.Name
  if value == "" then
    filter.IsNotDefined
  else if filter.IsNotDefined then
    false
  else
    match filter.TextMatch with
    | some txt => matchTextMatch txt value
    | none => true

/-- `matchPropTimeRange` (match.go): the property's date/time must lie
strictly inside `(start, end)`. -/
def matchPropTimeRange (env : ICalEnv) (start endT : Time) (field : ICalProp) :
    Except String Bool := do
  let ptime ← env.propDateTime field
  pure (decide (ptime > start) && decide (ptime < endT))

/-- `matchCompTimeRange` (match.go): only events can overlap; the event
overlaps `(start, end)` iff its start lies strictly inside, its end lies
strictly inside, or it spans the whole interval. -/
def matchCompTimeRange (env : ICalEnv) (start endT : Time) (comp : Component) :
    Except String Bool :=
  if comp.Name ≠ CompEvent then
    .ok false
  else
    do
    let eventStart ← env.dateTimeStart comp
    let eventEnd ← env.dateTimeEnd comp
    if eventStart > start ∧ eventStart < endT then
      pure true
    else if eventEnd > start ∧ eventEnd < endT then
      pure true
    else if eventStart < start ∧ eventEnd > endT then
      pure true
    else
      pure false

/-- `matchPropFilter` (match.go): first property by name; absent folds to
`IsNotDefined`; present goes through time-range or text-match branch (each
also requiring every param filter), or bare existence. -/
def matchPropFilter (env : ICalEnv) (filter : PropFilter) (comp : Component) :
    Except String Bool :=
  match propsGet comp.Props filter.Name with
  | none => pure filter.IsNotDefined
  | some field =>
    if filter.Start ≠ zeroDate then do
      let m ← matchPropTimeRange env filter.Start filter.End field
      if !m then pure false
      else if filter.ParamFilter.all (fun pf => matchParamFilter pf field) then
        pure true
      else
        pure false
    else
      match filter.TextMatch with
      | some txt =>
        if !matchTextMatch txt field.Value then pure false
        else if filter.ParamFilter.all (fun pf => matchParamFilter pf field) then
          pure true
        else
          pure false
      | none => pure true

/-- The `for _, propFilter := range ...` loops of `Match` and
`matchCompFilterChild`: every property filter must match, short-circuiting
on the first failure or error. -/
def matchProps (env : ICalEnv) (filters : List PropFilter) (comp : Component) :
    Except String Bool :=
  match filters with
  | [] => pure true
  | f :: rest => do
    let m ← matchPropFilter env f comp
    if !m then pure false else matchProps env rest comp

mutual

/-- `matchCompFilter` (match.go): scan every direct child; if none match
the result is `filter.IsNotDefined`, otherwise `true`. -/
def matchCompFilter (env : ICalEnv) (filter : CompFilter) (comp : Component) :
    Except String Bool := do
  let anyMatch ← matchChildren env filter comp.Children
  if anyMatch then pure true else pure filter.IsNotDefined
termination_by sizeOf filter + sizeOf comp
decreasing_by cases comp; simp [Component.Children]

/-- The child-scanning loop of `matchCompFilter`: errors abort the scan;
otherwise reports whether any child matched. -/
def matchChildren (env : ICalEnv) (filter : CompFilter) (children : List Component) :
    Except String Bool :=
  match children with
  | [] => pure false
  | child :: rest => do
    let m ← matchCompFilterChild env filter child
    let mrest ← matchChildren env filter rest
    pure (m || mrest)
termination_by sizeOf filter + sizeOf children
decreasing_by all_goals (simp only [List.cons.sizeOf_spec]; omega)

/-- `matchCompFilterChild` (match.go): name must match; then optional
time range, then every nested component filter, then every property
filter. -/
def matchCompFilterChild (env : ICalEnv) (filter : CompFilter) (comp : Component) :
    Except String Bool :=
  if comp.Name ≠ filter.Name then
    pure false
  else do
    let m ← (if filter.Start ≠ zeroDate then
               matchCompTimeRange env filter.Start filter.End comp
             else pure true)
    if !m then pure false
    else do
      let m2 ← matchComps env filter.Comps comp
      if !m2 then pure false
      else matchProps env filter.Props comp
termination_by sizeOf filter + sizeOf comp
decreasing_by cases filter; simp [CompFilter.Comps]; omega

/-- The `for _, compFilter := range filter.Comps` loops: every nested
component filter must match, short-circuiting on failure or error. -/
def matchComps (env : ICalEnv) (filters : List CompFilter) (comp : Component) :
    Except String Bool :=
  match filters with
  | [] => pure true
  | f :: rest => do
    let m ← matchCompFilter env f comp
    if !m then pure false else matchComps env rest comp
termination_by sizeOf filters + sizeOf comp
decreasing_by all_goals (simp only [List.cons.sizeOf_spec]; omega)

end

/-- `Match` (match.go): no parsed data matches nothing; a root-name
mismatch folds to `query.IsNotDefined`; otherwise every nested component
filter and every property filter must match. -/
def Match (env : ICalEnv) (query : CompFilter) (co : CalendarObject) :
    Except String Bool :=
  match co.Data with
  | none => pure false
  | some data =>
    match data.Component with
    | none => pure false
    | some comp =>
      if query.Name ≠ comp.Name then
        pure query.IsNotDefined
      else do
        let m ← matchComps env query.Comps comp
        if !m then pure false
        else matchProps env query.Props comp

/-- The object loop of `Filter`: keep each object with `Match` true, abort
on the first error. -/
def filterLoop (env : ICalEnv) (query : CompFilter) (cos : List CalendarObject) :
    Except String (List CalendarObject) :=
  match cos with
  | [] => pure []
  | co :: rest => do
    let ok ← Match env query co
    let out ← filterLoop env query rest
    pure (if ok then co :: out else out)

/-- `Filter` (match.go): a `nil` query returns the input list unchanged;
otherwise keep exactly the objects `Match` accepts, failing fast on the
first error. -/
def Filter (env : ICalEnv) (query : Option CalendarQuery)
    (cos : List CalendarObject) : Except String (List CalendarObject) :=
  match query with
  | none => pure cos
  | some q => filterLoop env q.CompFilter cos

/-- A concrete go-ical environment for evaluating the matcher on sample
data: every event runs from instant 10 to instant 20, every date/time
property denotes instant 15. -/
def envW : ICalEnv where
  dateTimeStart := fun _ => .ok 10
  dateTimeEnd := fun _ => .ok 20
  propDateTime := fun _ => .ok 15

/-- A concrete go-ical environment whose property date/time derivation
always fails, standing for malformed date/time data. -/
def envBad : ICalEnv where
  dateTimeStart := fun _ => .error "bad DTSTART"
  dateTimeEnd := fun _ => .error "bad DTEND"
  propDateTime := fun _ => .error "bad date-time value"

instance : DecidableEq (Except String Bool) := fun a b =>
  match a, b with
  | .ok x, .ok y =>
    match decEq x y with
    | isTrue h => isTrue (by rw [h])
    | isFalse h => isFalse (fun hh => h (Except.ok.inj hh))
  | .ok _, .error _ => isFalse (fun hh => Except.noConfusion hh)
  | .error _, .ok _ => isFalse (fun hh => Except.noConfusion hh)
  | .error x, .error y =>
    match decEq x y with
    | isTrue h => isTrue (by rw [h])
    | isFalse h => isFalse (fun hh => h (Except.error.inj hh))

end Caldav

namespace Caldav

/-! ### Basic normalisation and step lemmas -/

theorem pure_eq_ok {α : Type} (a : α) : (pure a : Except String α) = Except.ok a := rfl

theorem ok_bind {α β : Type} (a : α) (k : α → Except String β) :
    (Except.ok a : Except String α) >>= k = k a := rfl

theorem error_bind {α β : Type} (e : String) (k : α → Except String β) :
    (Except.error e : Except String α) >>= k = (Except.error e : Except String β) := rfl

theorem matchComps_nil (env : ICalEnv) (comp : Component) :
    matchComps env [] comp = Except.ok true := by
  rw [matchComps]; rfl

theorem matchComps_cons (env : ICalEnv) (f : CompFilter) (rest : List CompFilter)
    (comp : Component) :
    matchComps env (f :: rest) comp =
      (matchCompFilter env f comp >>= fun m =>
        if !m then pure false else matchComps env rest comp) := by
  rw [matchComps]

theorem matchChildren_nil (env : ICalEnv) (f : CompFilter) :
    matchChildren env f [] = Except.ok false := by
  rw [matchChildren]; rfl

theorem matchChildren_cons (env : ICalEnv) (f : CompFilter) (c : Component)
    (rest : List Component) :
    matchChildren env f (c :: rest) =
      (matchCompFilterChild env f c >>= fun m =>
        matchChildren env f rest >>= fun mrest => pure (m || mrest)) := by
  rw [matchChildren]

theorem matchCompFilter_def (env : ICalEnv) (f : CompFilter) (comp : Component) :
    matchCompFilter env f comp =
      (matchChildren env f comp.Children >>= fun anyMatch =>
        if anyMatch then pure true else pure f.IsNotDefined) := by
  rw [matchCompFilter]

theorem matchCompFilterChild_def (env : ICalEnv) (f : CompFilter) (comp : Component) :
    matchCompFilterChild env f comp =
      (if comp.Name ≠ f.Name then pure false
       else
         (if f.Start ≠ zeroDate then
            matchCompTimeRange env f.Start f.End comp
          else pure true) >>= fun m =>
         if !m then pure false
         else matchComps env f.Comps comp >>= fun m2 =>
           if !m2 then pure false
           else matchProps env f.Props comp) := by
  rw [matchCompFilterChild]


/-! ### Claim theorems -/

/-- C9: `Filter` with a `nil` query returns the input object list
unchanged, with a nil error, for every input list including the empty
one. -/
theorem Filter_nilQuery_identity (env : ICalEnv) (cos : List CalendarObject) :
    Filter env none cos = Except.ok cos := rfl

/-- C7: `Match` returns `(false, nil)` whenever the calendar object has no
parsed calendar data — a nil `Data` or a nil root component — regardless
of the query. -/
theorem Match_absentData_false (env : ICalEnv) (query : CompFilter) (path : String) :
    Match env query ⟨path, none⟩ = Except.ok false ∧
    Match env query ⟨path, some ⟨none⟩⟩ = Except.ok false :=
  ⟨rfl, rfl⟩

/-- C8: when the object has parsed data but its root component's name
differs from the query's name, `Match` returns `(query.IsNotDefined, nil)`. -/
theorem Match_rootNameMismatch (env : ICalEnv) (query : CompFilter) (path : String)
    (comp : Component) (h : query.Name ≠ comp.Name) :
    Match env query ⟨path, some ⟨some comp⟩⟩ = Except.ok query.IsNotDefined := by
  simp [Match, h, pure_eq_ok]

/-- Witness for C8 at a concrete input: a query for "VCALENDAR" with
`IsNotDefined = true` against an object whose root is a VTODO yields
`Except.ok true`. -/
theorem Match_rootNameMismatch_witness :
    Match envW (CompFilter.mk "VCALENDAR" true 0 0 [] [])
        ⟨"a.ics", some ⟨some (Component.mk "VTODO" [] [])⟩⟩ = Except.ok true :=
  Match_rootNameMismatch envW (CompFilter.mk "VCALENDAR" true 0 0 [] []) "a.ics"
    (Component.mk "VTODO" [] []) (by decide)

/-- C10: `Match` never reads the root query's own `Start`/`End` fields —
two queries identical except in their top-level time range produce the
same result on every object. -/
theorem Match_ignores_rootTimeRange (env : ICalEnv) (n : String) (d : Bool)
    (s1 e1 s2 e2 : Time) (cs : List CompFilter) (ps : List PropFilter)
    (co : CalendarObject) :
    Match env (CompFilter.mk n d s1 e1 cs ps) co =
      Match env (CompFilter.mk n d s2 e2 cs ps) co := rfl

/-- C1 (amended): a PropFilter with `IsNotDefined = true`, no time range
and no TextMatch evaluates to true on every component: true when the
named property is absent, and also true when it is present, because the
present-property branch never consults `IsNotDefined`. -/
theorem matchPropFilter_isNotDefined_true (env : ICalEnv) (comp : Component)
    (name : String) (endv : Time) (pfs : List ParamFilter) :
    matchPropFilter env ⟨name, true, 0, endv, none, pfs⟩ comp = Except.ok true := by
  unfold matchPropFilter
  cases propsGet comp.Props name <;> simp [zeroDate, pure_eq_ok]

/-- C1 counterexample: on a component that does have a "UID" property, a
PropFilter for "UID" with `IsNotDefined = true` (no time range, no
TextMatch) returns true, not false as claimed. -/
theorem matchPropFilter_isNotDefined_present_counterexample :
    matchPropFilter envW ⟨"UID", true, 0, 0, none, []⟩
        (Component.mk "VEVENT" [⟨"UID", "abc123", []⟩] []) = Except.ok true ∧
    matchPropFilter envW ⟨"UID", true, 0, 0, none, []⟩
        (Component.mk "VEVENT" [⟨"UID", "abc123", []⟩] []) ≠ Except.ok false := by
  exact ⟨rfl, by decide⟩


/-- C4: `matchCompTimeRange` returns `(false, nil)` on any non-VEVENT
component; on a VEVENT whose start/end derive without error it returns
true iff the event start lies strictly inside `(start, end)`, or the
event end does, or the event spans the whole interval — boundary
equality never counts. -/
theorem matchCompTimeRange_spec (env : ICalEnv) (start endT : Time) (comp : Component) :
    (comp.Name ≠ CompEvent → matchCompTimeRange env start endT comp = Except.ok false)
    ∧ (∀ es ee : Time, comp.Name = CompEvent →
        env.dateTimeStart comp = Except.ok es → env.dateTimeEnd comp = Except.ok ee →
        (matchCompTimeRange env start endT comp = Except.ok true ↔
          (start < es ∧ es < endT) ∨ (start < ee ∧ ee < endT) ∨ (es < start ∧ ee > endT))) := by
  constructor
  · intro h
    simp [matchCompTimeRange, h]
  · intro es ee hn hs he
    simp only [matchCompTimeRange, hn, ne_eq, not_true_eq_false, if_false, ite_false,
      ite_not, hs, he, ok_bind, pure_eq_ok]
    split_ifs with h1 h2 h3 <;> simp_all

/-- Witness for C4: with event instants 10–20, the range (5, 15) matches
the VEVENT (its start 10 lies strictly inside), and a VTODO never
matches. -/
theorem matchCompTimeRange_spec_witness :
    matchCompTimeRange envW 5 15 (Component.mk "VEVENT" [] []) = Except.ok true ∧
    matchCompTimeRange envW 5 15 (Component.mk "VTODO" [] []) = Except.ok false :=
  ⟨((matchCompTimeRange_spec envW 5 15 (Component.mk "VEVENT" [] [])).2 10 20 rfl rfl
      rfl).mpr (by norm_num),
   (matchCompTimeRange_spec envW 5 15 (Component.mk "VTODO" [] [])).1 (by decide)⟩

/-- C5: when the named property exists and the PropFilter carries neither
a time range nor a TextMatch, the filter is satisfied by mere existence —
param filters are not consulted — whereas the text-match and time-range
branches both fail as soon as one param filter fails. -/
theorem matchPropFilter_existenceBranch (env : ICalEnv) (comp : Component)
    (name : String) (ind : Bool) (endv : Time) (pfs : List ParamFilter)
    (field : ICalProp) (hfield : propsGet comp.Props name = some field) :
    matchPropFilter env ⟨name, ind, 0, endv, none, pfs⟩ comp = Except.ok true
    ∧ (∀ txt : TextMatch, matchTextMatch txt field.Value = true →
        (∃ pf ∈ pfs, matchParamFilter pf field = false) →
        matchPropFilter env ⟨name, ind, 0, endv, some txt, pfs⟩ comp = Except.ok false)
    ∧ (∀ s : Time, s ≠ zeroDate → matchPropTimeRange env s endv field = Except.ok true →
        (∃ pf ∈ pfs, matchParamFilter pf field = false) →
        matchPropFilter env ⟨name, ind, s, endv, none, pfs⟩ comp = Except.ok false) := by
  refine ⟨?_, ?_, ?_⟩
  · simp [matchPropFilter, hfield, zeroDate, pure_eq_ok]
  · intro txt htxt hex
    have hall : pfs.all (fun pf => matchParamFilter pf field) = false := by
      obtain ⟨pf, hmem, hpf⟩ := hex
      rcases h : pfs.all (fun pf => matchParamFilter pf field) with _ | _
      · rfl
      · rw [List.all_eq_true] at h
        exact absurd (h pf hmem) (by simp [hpf])
    simp [matchPropFilter, hfield, zeroDate, htxt, hall, pure_eq_ok]
  · intro s hs hrange hex
    have hall : pfs.all (fun pf => matchParamFilter pf field) = false := by
      obtain ⟨pf, hmem, hpf⟩ := hex
      rcases h : pfs.all (fun pf => matchParamFilter pf field) with _ | _
      · rfl
      · rw [List.all_eq_true] at h
        exact absurd (h pf hmem) (by simp [hpf])
    simp [matchPropFilter, hfield, hs, hrange, hall, ok_bind, pure_eq_ok]

/-- Witness for C5: a component with `ATTENDEE;ROLE=CHAIR:x@y` and a
param filter `ROLE IsNotDefined` that fails — the bare-existence filter
still returns true, while the text-match filter with the same param
filter returns false. -/
theorem matchPropFilter_existenceBranch_witness :
    matchPropFilter envW ⟨"ATTENDEE", false, 0, 0, none, [⟨"ROLE", true, none⟩]⟩
        (Component.mk "VEVENT" [⟨"ATTENDEE", "x@y", [("ROLE", "CHAIR")]⟩] [])
      = Except.ok true ∧
    matchPropFilter envW
        ⟨"ATTENDEE", false, 0, 0, some ⟨"x@y", false⟩, [⟨"ROLE", true, none⟩]⟩
        (Component.mk "VEVENT" [⟨"ATTENDEE", "x@y", [("ROLE", "CHAIR")]⟩] [])
      = Except.ok false := by
  have h := matchPropFilter_existenceBranch envW
    (Component.mk "VEVENT" [⟨"ATTENDEE", "x@y", [("ROLE", "CHAIR")]⟩] [])
    "ATTENDEE" false 0 [⟨"ROLE", true, none⟩] ⟨"ATTENDEE", "x@y", [("ROLE", "CHAIR")]⟩
    rfl
  exact ⟨h.1, h.2.1 ⟨"x@y", false⟩ (by decide) ⟨⟨"ROLE", true, none⟩, by decide, by decide⟩⟩


/-! ### Child-scanning lemmas -/

/-- A child filter with no time range and no nested filters matches a
candidate child exactly when the names agree. -/
theorem matchCompFilterChild_empty (env : ICalEnv) (n : String) (ind : Bool)
    (e : Time) (c : Component) :
    matchCompFilterChild env (CompFilter.mk n ind 0 e [] []) c =
      Except.ok (decide (c.Name = n)) := by
  rw [matchCompFilterChild_def]
  by_cases h : c.Name = n
  · simp [h, CompFilter.Name, CompFilter.Start, CompFilter.Comps, CompFilter.Props,
      zeroDate, matchComps_nil, matchProps, ok_bind, pure_eq_ok]
  · simp [h, CompFilter.Name, pure_eq_ok]

/-- When no child errors, the child scan reports whether any child
matched. -/
theorem matchChildren_eq_any (env : ICalEnv) (f : CompFilter) (cs : List Component)
    (h : ∀ c ∈ cs, ∃ b, matchCompFilterChild env f c = Except.ok b) :
    matchChildren env f cs =
      Except.ok (cs.any fun c =>
        decide (matchCompFilterChild env f c = Except.ok true)) := by
  induction cs with
  | nil => simp [matchChildren_nil]
  | cons c rest ih =>
    obtain ⟨b, hb⟩ := h c (by simp)
    have hdec : decide (matchCompFilterChild env f c = Except.ok true) = b := by
      rw [hb]; cases b <;> simp
    rw [matchChildren_cons, hb, ok_bind, ih (fun x hx => h x (by simp [hx])), ok_bind,
      List.any_cons, hdec, pure_eq_ok]

/-- C3: with no child erroring, `matchCompFilter` returns true exactly
when at least one direct child matches (existential quantifier), and
returns `filter.IsNotDefined` when zero children match. -/
theorem matchCompFilter_existsChild (env : ICalEnv) (f : CompFilter) (comp : Component)
    (h : ∀ c ∈ comp.Children, ∃ b, matchCompFilterChild env f c = Except.ok b) :
    matchCompFilter env f comp =
      Except.ok (if ∃ c ∈ comp.Children, matchCompFilterChild env f c = Except.ok true
                 then true else f.IsNotDefined) := by
  rw [matchCompFilter_def, matchChildren_eq_any env f comp.Children h, ok_bind]
  by_cases hex : ∃ c ∈ comp.Children, matchCompFilterChild env f c = Except.ok true
  · have hany : (comp.Children.any fun c =>
        decide (matchCompFilterChild env f c = Except.ok true)) = true := by
      rw [List.any_eq_true]
      obtain ⟨c, hc, he⟩ := hex
      exact ⟨c, hc, by simp [he]⟩
    simp [hany, hex, pure_eq_ok]
  · rcases hany : (comp.Children.any fun c =>
        decide (matchCompFilterChild env f c = Except.ok true)) with _ | _
    · simp [hex, pure_eq_ok]
    · exfalso
      rw [List.any_eq_true] at hany
      obtain ⟨c, hc, hdec⟩ := hany
      exact hex ⟨c, hc, of_decide_eq_true hdec⟩

/-- Witness for C3: a "VALARM" child filter against a VEVENT with one
VALARM child and one unrelated child — one child matches, so the
component filter succeeds. -/
theorem matchCompFilter_existsChild_witness :
    matchCompFilter envW (CompFilter.mk "VALARM" false 0 0 [] [])
      (Component.mk "VEVENT" [] [Component.mk "VALARM" [] [], Component.mk "VTODO" [] []])
      = Except.ok true := by
  have h := matchCompFilter_existsChild envW (CompFilter.mk "VALARM" false 0 0 [] [])
    (Component.mk "VEVENT" [] [Component.mk "VALARM" [] [], Component.mk "VTODO" [] []])
    (fun c _ => ⟨decide (c.Name = "VALARM"), matchCompFilterChild_empty envW "VALARM" false 0 c⟩)
  rw [if_pos ⟨Component.mk "VALARM" [] [], by simp [Component.Children],
    by rw [matchCompFilterChild_empty]; simp [Component.Name]⟩] at h
  exact h


/-- A `{Name, IsNotDefined := true}` component filter with no range and no
nested filters succeeds on every component: true when no child carries the
name (absence folds to `IsNotDefined = true`) and true when one does. -/
theorem matchCompFilter_isNotDefined_empty (env : ICalEnv) (n : String) (e : Time)
    (comp : Component) :
    matchCompFilter env (CompFilter.mk n true 0 e [] []) comp = Except.ok true := by
  rw [matchCompFilter_def,
    matchChildren_eq_any env _ comp.Children
      (fun c _ => ⟨decide (c.Name = n), matchCompFilterChild_empty env n true e c⟩),
    ok_bind]
  rcases hany : (comp.Children.any fun c =>
      decide (matchCompFilterChild env (CompFilter.mk n true 0 e [] []) c
        = Except.ok true)) with _ | _ <;>
    simp [hany, CompFilter.IsNotDefined, pure_eq_ok]

/-- C2 (amended): a VEVENT filter whose only nested component filter is
`{Name := "VALARM", IsNotDefined := true}` matches every VEVENT
candidate: outer true with zero VALARM children, and also outer true with
one or more VALARM children, since a matching child makes the inner
`matchCompFilter` return true regardless of `IsNotDefined`. -/
theorem matchCompFilterChild_valarmNotDefined (env : ICalEnv) (comp : Component)
    (ind : Bool) (e1 e2 : Time) (h : comp.Name = "VEVENT") :
    matchCompFilterChild env
      (CompFilter.mk "VEVENT" ind 0 e1 [CompFilter.mk "VALARM" true 0 e2 [] []] []) comp
      = Except.ok true := by
  rw [matchCompFilterChild_def]
  simp [h, CompFilter.Name, CompFilter.Start, CompFilter.Comps, CompFilter.Props,
    zeroDate, matchComps_cons, matchCompFilter_isNotDefined_empty, ok_bind,
    matchComps_nil, matchProps, pure_eq_ok]

/-- Witness for C2 (amended) at a concrete input: a VEVENT with zero
VALARM children matches the filter. -/
theorem matchCompFilterChild_valarmNotDefined_witness :
    matchCompFilterChild envW
      (CompFilter.mk "VEVENT" false 0 0 [CompFilter.mk "VALARM" true 0 0 [] []] [])
      (Component.mk "VEVENT" [] []) = Except.ok true :=
  matchCompFilterChild_valarmNotDefined envW (Component.mk "VEVENT" [] []) false 0 0 rfl

/-- C2 counterexample: against a VEVENT that has a VALARM child (with
content), the outer match is true — not false as claimed. -/
theorem matchCompFilterChild_valarmNotDefined_counterexample :
    matchCompFilterChild envW
        (CompFilter.mk "VEVENT" false 0 0 [CompFilter.mk "VALARM" true 0 0 [] []] [])
        (Component.mk "VEVENT" [] [Component.mk "VALARM" [⟨"ACTION", "DISPLAY", []⟩] []])
      = Except.ok true ∧
    matchCompFilterChild envW
        (CompFilter.mk "VEVENT" false 0 0 [CompFilter.mk "VALARM" true 0 0 [] []] [])
        (Component.mk "VEVENT" [] [Component.mk "VALARM" [⟨"ACTION", "DISPLAY", []⟩] []])
      ≠ Except.ok false := by
  have h1 : matchCompFilterChild envW
      (CompFilter.mk "VEVENT" false 0 0 [CompFilter.mk "VALARM" true 0 0 [] []] [])
      (Component.mk "VEVENT" [] [Component.mk "VALARM" [⟨"ACTION", "DISPLAY", []⟩] []])
      = Except.ok true := by
    rw [matchCompFilterChild_def]
    simp [Component.Name, CompFilter.Name, CompFilter.Start, CompFilter.Comps,
      CompFilter.Props, zeroDate, matchComps_cons, matchCompFilter_isNotDefined_empty,
      ok_bind, matchComps_nil, matchProps, pure_eq_ok]
  exact ⟨h1, by simp [h1]⟩

/-! ### Filter loop lemmas -/

theorem filterLoop_nil (env : ICalEnv) (query : CompFilter) :
    filterLoop env query [] = Except.ok [] := rfl

theorem filterLoop_cons (env : ICalEnv) (query : CompFilter) (co : CalendarObject)
    (rest : List CalendarObject) :
    filterLoop env query (co :: rest) =
      (Match env query co >>= fun ok =>
        filterLoop env query rest >>= fun out =>
          pure (if ok then co :: out else out)) := rfl

theorem Filter_some (env : ICalEnv) (q : CalendarQuery) (cos : List CalendarObject) :
    Filter env (some q) cos = filterLoop env q.CompFilter cos := rfl

/-- C6: if `Match` fails on some object, `Filter` returns that same error
with no partial results, regardless of the objects after the failing
one. -/
theorem Filter_failFast (env : ICalEnv) (q : CalendarQuery) (pre : List CalendarObject)
    (co : CalendarObject) (post : List CalendarObject) (e : String)
    (hpre : ∀ c ∈ pre, ∃ b, Match env q.CompFilter c = Except.ok b)
    (hco : Match env q.CompFilter co = Except.error e) :
    Filter env (some q) (pre ++ co :: post) = Except.error e := by
  induction pre with
  | nil =>
    rw [List.nil_append, Filter_some, filterLoop_cons, hco, error_bind]
  | cons p rest ih =>
    obtain ⟨b, hb⟩ := hpre p (by simp)
    have hrest := ih (fun c hc => hpre c (by simp [hc]))
    rw [Filter_some] at hrest
    rw [List.cons_append, Filter_some, filterLoop_cons, hb, ok_bind, hrest, error_bind]

/-- Witness for C6: with an environment whose date/time derivation fails,
a batch [no-data object, erroring object, trailing object] aborts with
the derivation error. -/
theorem Filter_failFast_witness :
    Filter envBad
      (some ⟨CompFilter.mk "VCALENDAR" false 0 0 []
        [⟨"DTSTART", false, 5, 15, none, []⟩]⟩)
      [⟨"none.ics", none⟩,
       ⟨"bad.ics", some ⟨some (Component.mk "VCALENDAR" [⟨"DTSTART", "x", []⟩] [])⟩⟩,
       ⟨"after.ics", none⟩]
      = Except.error "bad date-time value" := by
  have hco : Match envBad
      (CompFilter.mk "VCALENDAR" false 0 0 [] [⟨"DTSTART", false, 5, 15, none, []⟩])
      ⟨"bad.ics", some ⟨some (Component.mk "VCALENDAR" [⟨"DTSTART", "x", []⟩] [])⟩⟩
      = Except.error "bad date-time value" := by
    simp [Match, Component.Name, CompFilter.Name, CompFilter.Comps, CompFilter.Props,
      matchComps_nil, ok_bind, matchProps, matchPropFilter, propsGet,
      matchPropTimeRange, envBad, zeroDate, error_bind, pure_eq_ok, Component.Props]
  exact Filter_failFast envBad
    ⟨CompFilter.mk "VCALENDAR" false 0 0 [] [⟨"DTSTART", false, 5, 15, none, []⟩]⟩
    [⟨"none.ics", none⟩]
    ⟨"bad.ics", some ⟨some (Component.mk "VCALENDAR" [⟨"DTSTART", "x", []⟩] [])⟩⟩
    [⟨"after.ics", none⟩] "bad date-time value"
    (by intro c hc; simp at hc; subst hc; exact ⟨false, rfl⟩) hco

end Caldav
